import Mathlib

/-!
Verification development for the heuristic static-analysis engine of the
`github-analyzer-pro` repository (`src/lib/heuristics.ts`, enhanced variant):
tokenization, shingling, Jaccard near-duplicate detection, pattern scanners,
and the `analyzeFiles` aggregator. JavaScript strings are modelled as Lean
strings (lists of characters), JS numbers used as counters/indices as `Nat`,
and the floating-point similarity as `ℚ`.
-/

set_option maxRecDepth 40000

namespace GHA

/-- JS `\w` character class: ASCII letter, digit, or underscore
(the source regexes are compiled without the unicode flag). -/
def isWordChar (c : Char) : Bool :=
  ('a' ≤ c && c ≤ 'z') || ('A' ≤ c && c ≤ 'Z') || ('0' ≤ c && c ≤ '9') || c = '_'

/-- JS `\s` character class (ECMAScript WhiteSpace ∪ LineTerminator). -/
def isJsSpace (c : Char) : Bool :=
  c = ' ' || c = '\t' || c = '\n' || c = '\r' || c = '\x0b' || c = '\x0c' ||
  c = '\u00A0' || c = '\u1680' || ('\u2000' ≤ c && c ≤ '\u200A') ||
  c = '\u2028' || c = '\u2029' || c = '\u202F' || c = '\u205F' ||
  c = '\u3000' || c = '\uFEFF'

/-- The punctuation/operator class of the tokenizer's split regex
`[{}()[\];,.:<>+\-*/%=&|!^~?]`. -/
def isSplitSym (c : Char) : Bool :=
  c = '\x7b' || c = '\x7d' || c = '(' || c = ')' || c = '[' || c = ']' ||
  c = ';' || c = ',' || c = '.' || c = ':' || c = '<' || c = '>' ||
  c = '+' || c = '-' || c = '*' || c = '/' || c = '%' || c = '=' ||
  c = '&' || c = '|' || c = '!' || c = '^' || c = '~' || c = '?'

/-- JS `.` (dot) without the `s` flag: any character except a line terminator. -/
def isJsDot (c : Char) : Bool :=
  !(c = '\n' || c = '\r' || c = '\u2028' || c = '\u2029')

/-- `src.replace(/\r\n/g, "\n")`: left-to-right, non-overlapping replacement of
CRLF pairs by LF. -/
def normEol : List Char → List Char
  | '\r' :: '\n' :: rest => '\n' :: normEol rest
  | c :: rest => c :: normEol rest
  | [] => []

/-- Is position `i` of `input` occupied by a word character? (false past the end) -/
def isWordAt (input : List Char) (i : Nat) : Bool :=
  match input[i]? with
  | some c => isWordChar c
  | none => false

/-- JS `\b` word boundary at position `i` (positions index the gaps between
characters; the string start/end counts as a non-word side). -/
def boundaryAt (input : List Char) (i : Nat) : Bool :=
  if i = 0 then isWordAt input 0
  else isWordAt input (i - 1) != isWordAt input i

/-- Sticky match of the tokenizer's separator regex `(\b|\s|[{}()[\];,.:<>+\-*/%=&|!^~?])`
at position `q`: returns the length of the match (the JS alternation tries `\b`,
then `\s`, then the symbol class), or `none` when no alternative matches. -/
def splitMatchLen (input : List Char) (q : Nat) : Option Nat :=
  if boundaryAt input q then some 0
  else match input[q]? with
    | some c => if isJsSpace c then some 1 else if isSplitSym c then some 1 else none
    | none => none

/-- The substring `input[p..q)` as a string. -/
def extractStr (input : List Char) (p q : Nat) : String :=
  String.mk ((input.drop p).take (q - p))

/-- The ES `String.prototype.split` loop specialised to the tokenizer's separator
regex, whose single capture group wraps the whole pattern (so each successful
match also contributes the matched separator text as a captured entry).
State `(p, q)`: `p` is the end of the last match, `q` the current probe position.
The fuel argument strictly dominates the number of loop iterations. -/
def splitLoop (input : List Char) : Nat → Nat → Nat → List String
  | 0, p, _ => [extractStr input p input.length]
  | fuel + 1, p, q =>
    if q ≥ input.length then [extractStr input p input.length]
    else match splitMatchLen input q with
      | none => splitLoop input fuel p (q + 1)
      | some l =>
          let e := q + l
          if e = p then splitLoop input fuel p (q + 1)
          else extractStr input p q :: extractStr input q e :: splitLoop input fuel e e

/-- `s.split(/(\b|\s|[{}()[\];,.:<>+\-*/%=&|!^~?])/g)`. -/
def jsSplitTok (input : List Char) : List String :=
  splitLoop input (2 * input.length + 8) 0 0

/-- `tokenize` from `heuristics.ts`: normalize CRLF, split on the separator
regex (keeping the captured separators), `.map(s => s)` (identity), and
`.filter(Boolean)`, which drops exactly the empty strings. -/
def tokenize (src : String) : List String :=
  (jsSplitTok (normEol src.data)).filter (fun t => t ≠ "")

/-- `shingles` from `heuristics.ts`: all `k`-token windows, each joined by a
single space; empty when fewer than `k` tokens. -/
def shingles (tokens : List String) (k : Nat := 30) : List String :=
  if tokens.length < k then []
  else (List.range (tokens.length - k + 1)).map
    (fun i => " ".intercalate ((tokens.drop i).take k))

/-- Adding one element to a JS `Set` (insertion-ordered, first occurrence kept). -/
def jsSetInsert (l : List String) (x : String) : List String :=
  if x ∈ l then l else l ++ [x]

/-- `new Set(array)`: deduplicated list in first-occurrence order. -/
def mkSet (l : List String) : List String :=
  l.foldl jsSetInsert []

/-- `jaccard` from `heuristics.ts` on two shingle sets (modelled as
duplicate-free lists): `|A ∩ B| / |A ∪ B|`, and `0` when the union is empty.
The quotient is written with `Rat.divInt`, which agrees with `/` on `ℚ`
(see `jaccard_eq_div` below). -/
def jaccard (a b : List String) : ℚ :=
  let inter : Nat := (a.filter (fun s => s ∈ b)).length
  let union : Nat := a.length + b.length - inter
  if union = 0 then 0 else Rat.divInt (inter : ℤ) (union : ℤ)

/-- The fixed `BRANCH_TOKENS` list from `heuristics.ts`. -/
def BRANCH_TOKENS : List String :=
  ["if", "else", "for", "while", "case", "catch", "?", "&&", "||", "try", "foreach", "switch"]

/-- `approxComplexity`: number of branch tokens plus one. -/
def approxComplexity (tokens : List String) : Nat :=
  (tokens.filter (fun t => t ∈ BRANCH_TOKENS)).length + 1

/-- One step of `countMaxNesting`: `{` increments the depth (updating the
running maximum), `}` decrements it, floored at `0`. -/
def nestStep : Nat × Nat → Char → Nat × Nat
  | (depth, maxDepth), c =>
    if c = '\x7b' then (depth + 1, max maxDepth (depth + 1))
    else if c = '\x7d' then (depth - 1, maxDepth)
    else (depth, maxDepth)

/-- `countMaxNesting` from `heuristics.ts`. -/
def countMaxNesting (src : String) : Nat :=
  (src.data.foldl nestStep (0, 0)).2

/-! ### A small regex core

The scanner regexes of `heuristics.ts` use literals, character classes,
alternation, `*`/`+`/`?` quantifiers, `.`, `[\s\S]`, the `\b` assertion and one
negative lookahead. `Reg` transliterates them; `ends` computes, fuel-bounded,
every position at which a match starting at `i` can end (a complete
nondeterministic search, so emptiness of `ends` agrees with backtracking
`RegExp.prototype.test` reachability). -/

inductive Reg where
  | eps
  | dot
  | anyc
  | ch (c : Char)
  | cls (p : Char → Bool)
  | seq (a b : Reg)
  | alt (a b : Reg)
  | star (a : Reg)
  | wb
  | nla (a : Reg)

/-- All end positions of a match of `r` starting at position `i` of `input`.
The fuel bounds the recursion; `rtest` supplies enough fuel that it is never
exhausted for the fixed scanner regexes. In `star`, only progressing
iterations recurse, which preserves completeness (a non-consuming iteration
of a starred body never changes the reachable end positions). -/
def ends (input : List Char) : Nat → Reg → Nat → List Nat
  | 0, _, _ => []
  | _ + 1, .eps, i => [i]
  | _ + 1, .dot, i =>
      match input[i]? with
      | some c => if isJsDot c then [i + 1] else []
      | none => []
  | _ + 1, .anyc, i => if i < input.length then [i + 1] else []
  | _ + 1, .ch c, i =>
      match input[i]? with
      | some d => if d = c then [i + 1] else []
      | none => []
  | _ + 1, .cls p, i =>
      match input[i]? with
      | some d => if p d then [i + 1] else []
      | none => []
  | fuel + 1, .seq a b, i =>
      (ends input fuel a i).flatMap (fun j => ends input fuel b j)
  | fuel + 1, .alt a b, i => ends input fuel a i ++ ends input fuel b i
  | fuel + 1, .star a, i =>
      i :: ((ends input fuel a i).filter (fun j => i < j)).flatMap
        (fun j => ends input fuel (.star a) j)
  | _ + 1, .wb, i => if boundaryAt input i then [i] else []
  | fuel + 1, .nla a, i => if (ends input fuel a i).isEmpty then [i] else []

/-- `r.test(s)` for a JS regex without anchors: a match may start anywhere. -/
def rtest (r : Reg) (s : String) : Bool :=
  let cs := s.data
  (List.range (cs.length + 1)).any (fun i => !(ends cs (cs.length + 300) r i).isEmpty)

/-- Lowercase a string (ASCII case folding, as used by the `/i` flag on the
ASCII-only scanner patterns). -/
def lowerStr (s : String) : String :=
  String.mk (s.data.map Char.toLower)

/-- `r.test(s)` for a case-insensitive regex: the pattern below is written
lowercased and the subject is folded. -/
def rtestCI (r : Reg) (s : String) : Bool :=
  rtest r (lowerStr s)

/-- Concatenation of a list of regexes. -/
def rcat : List Reg → Reg
  | [] => .eps
  | [r] => r
  | r :: rest => .seq r (rcat rest)

/-- Alternation of a list of regexes (ordered alternation; for pure match
existence the order is irrelevant). -/
def ralts : List Reg → Reg
  | [] => .cls (fun _ => false)
  | [r] => r
  | r :: rest => .alt r (ralts rest)

/-- Literal string. -/
def rstr (s : String) : Reg := rcat (s.data.map Reg.ch)

/-- `r+`. -/
def rplus (r : Reg) : Reg := .seq r (.star r)

/-- `r?`. -/
def ropt (r : Reg) : Reg := .alt r .eps

/-- `\s`. -/
def rws : Reg := .cls isJsSpace

/-- `\w`. -/
def rw : Reg := .cls isWordChar

/-- `["']`. -/
def rquote : Reg := .cls (fun c => c = '"' || c = '\'')

/-! ### The scanner regexes (transliterated; `/i` patterns written lowercase) -/

/-- `/password\s*=\s*["'][\w]+["']|api[_-]?key\s*=\s*["'][\w\-]+["']/i` -/
def credReg : Reg := .alt
  (rcat [rstr "password", .star rws, .ch '=', .star rws, rquote, rplus rw, rquote])
  (rcat [rstr "api", ropt (.cls (fun c => c = '_' || c = '-')), rstr "key",
         .star rws, .ch '=', .star rws, rquote,
         rplus (.cls (fun c => isWordChar c || c = '-')), rquote])

/-- `/SELECT .* FROM .* \+ |"SELECT .*" \+|query\s*=\s*["'].* \+ /i` -/
def sqlReg : Reg := ralts
  [rcat [rstr "select ", .star .dot, rstr " from ", .star .dot, rstr " + "],
   rcat [.ch '"', rstr "select ", .star .dot, .ch '"', rstr " +"],
   rcat [rstr "query", .star rws, .ch '=', .star rws, rquote, .star .dot, rstr " + "]]

/-- `/exec\s*\(|system\s*\(|eval\s*\(|setTimeout\s*\(.*function/i` -/
def codeInjReg : Reg := ralts
  [rcat [rstr "exec", .star rws, .ch '('],
   rcat [rstr "system", .star rws, .ch '('],
   rcat [rstr "eval", .star rws, .ch '('],
   rcat [rstr "settimeout", .star rws, .ch '(', .star .dot, rstr "function"]]

/-- `/MD5|SHA1|DES\b|MD4|RC4/i` -/
def cryptoReg : Reg := ralts
  [rstr "md5", rstr "sha1", .seq (rstr "des") .wb, rstr "md4", rstr "rc4"]

/-- `/Math\.random\(\)|Random\(\)|new Random\(/i` -/
def randomReg : Reg := ralts
  [rstr "math.random()", rstr "random()", rstr "new random("]

/-- `/\w+\.\w+\s*(?!\=\=|\!\=)/` (case-sensitive) -/
def nullPtrReg : Reg :=
  rcat [rplus rw, .ch '.', rplus rw, .star rws, .nla (.alt (rstr "==") (rstr "!="))]

/-- `/if\s*\(.*\w+\s*(===|!==|==|!=)\s*null/` (case-sensitive) -/
def nullGuardReg : Reg :=
  rcat [rstr "if", .star rws, .ch '(', .star .dot, rplus rw, .star rws,
        ralts [rstr "===", rstr "!==", rstr "==", rstr "!="], .star rws, rstr "null"]

/-- `/\.length|\.size|\.get\(|\.set\(|\.push\(/` (case-sensitive) -/
def nullMemberReg : Reg := ralts
  [rstr ".length", rstr ".size", rstr ".get(", rstr ".set(", rstr ".push("]

/-- `/new\s+(FileInputStream|FileOutputStream|BufferedReader|Connection|Statement)/i` -/
def resourceReg : Reg :=
  rcat [rstr "new", rplus rws,
        ralts [rstr "fileinputstream", rstr "fileoutputstream", rstr "bufferedreader",
               rstr "connection", rstr "statement"]]

/-- `/catch\s*\(\s*(Exception|Throwable|Error)\s*[),]|catch\s*\(\s*\w+\s*\)\s*\{\s*\}/i` -/
def catchReg : Reg := .alt
  (rcat [rstr "catch", .star rws, .ch '(', .star rws,
         ralts [rstr "exception", rstr "throwable", rstr "error"],
         .star rws, .cls (fun c => c = ')' || c = ',')])
  (rcat [rstr "catch", .star rws, .ch '(', .star rws, rplus rw, .star rws, .ch ')',
         .star rws, .ch '\x7b', .star rws, .ch '\x7d'])

/-- `/\[\s*\w+\s*\-\s*1\s*\]|\[\s*length\s*\]/` (case-sensitive) -/
def boundsReg : Reg := .alt
  (rcat [.ch '[', .star rws, rplus rw, .star rws, .ch '-', .star rws, .ch '1',
         .star rws, .ch ']'])
  (rcat [.ch '[', .star rws, rstr "length", .star rws, .ch ']'])

/-- `/for\s*\(.*\)\s*\{[\s\S]*\w+\s*\+=\s*["']|while\s*\(.*\)\s*\{[\s\S]*\w+\s*\+=\s*["']/i` -/
def strConcatReg : Reg := .alt
  (rcat [rstr "for", .star rws, .ch '(', .star .dot, .ch ')', .star rws, .ch '\x7b',
         .star .anyc, rplus rw, .star rws, rstr "+=", .star rws, rquote])
  (rcat [rstr "while", .star rws, .ch '(', .star .dot, .ch ')', .star rws, .ch '\x7b',
         .star .anyc, rplus rw, .star rws, rstr "+=", .star rws, rquote])

/-- `/for\s*\(.*for\s*\(|while\s*\(.*while\s*\(/i` -/
def nestedLoopReg : Reg := .alt
  (rcat [rstr "for", .star rws, .ch '(', .star .dot, rstr "for", .star rws, .ch '('])
  (rcat [rstr "while", .star rws, .ch '(', .star .dot, rstr "while", .star rws, .ch '('])

/-- `/for\s*\(.*query|while\s*\(.*query|query.*for\s*\(/i` -/
def dbQueryReg : Reg := ralts
  [rcat [rstr "for", .star rws, .ch '(', .star .dot, rstr "query"],
   rcat [rstr "while", .star rws, .ch '(', .star .dot, rstr "query"],
   rcat [rstr "query", .star .dot, rstr "for", .star rws, .ch '(']]

/-- `/TODO|FIXME/` (case-sensitive) -/
def todoReg : Reg := .alt (rstr "TODO") (rstr "FIXME")

/-- `/\b(a|b|c|x|y|z|temp|tmp|foo|bar|baz)\b\s*=/` (case-sensitive) -/
def namingReg : Reg :=
  rcat [.wb,
        ralts [rstr "a", rstr "b", rstr "c", rstr "x", rstr "y", rstr "z",
               rstr "temp", rstr "tmp", rstr "foo", rstr "bar", rstr "baz"],
        .wb, .star rws, .ch '=']

/-! ### Data model -/

inductive IssueType where
  | SECURITY | BUGS | PERFORMANCE | DUPLICATION | COMPLEXITY | STYLE
deriving DecidableEq, Repr

inductive Severity where
  | info | minor | major | critical
deriving DecidableEq, Repr

structure HeuristicIssue where
  type : IssueType
  category : String
  file : String
  message : String
  severity : Severity
  line : Option Nat := none
  snippet : Option String := none
  impact : Option String := none
  remediation : Option String := none
deriving DecidableEq, Repr

structure FileBlob where
  path : String
  language : Option String := none
  content : String
  size : Nat
deriving DecidableEq, Repr

structure DuplicateCluster where
  files : List String
  similarity : ℚ
deriving DecidableEq, Repr

structure Stats where
  filesAnalyzed : Nat
  bytesAnalyzed : Nat
deriving DecidableEq, Repr

structure HeuristicSummary where
  issues : List HeuristicIssue
  duplicateClusters : List DuplicateCluster
  stats : Stats
deriving DecidableEq, Repr

/-- `if (b) issues.push(i)`. -/
def emitIf (b : Bool) (i : HeuristicIssue) : List HeuristicIssue :=
  if b then [i] else []

/-- Worker for `splitNl`: `acc` holds the current piece reversed. -/
def splitNlGo : List Char → List Char → List String
  | [], acc => [String.mk acc.reverse]
  | '\n' :: rest, acc => String.mk acc.reverse :: splitNlGo rest []
  | c :: rest, acc => splitNlGo rest (c :: acc)

/-- `src.split("\n")`: the pieces between newline characters (empty pieces
kept, as in JS; `"".split("\n")` is `[""]`). -/
def splitNl (s : String) : List String :=
  splitNlGo s.data []

/-- JS `String.prototype.trim`: strips the JS whitespace/line-terminator set
from both ends. -/
def jsTrim (s : String) : String :=
  String.mk (((s.data.dropWhile isJsSpace).reverse.dropWhile isJsSpace).reverse)

/-! ### Line scanners -/

/-- Body of the `lines.forEach` in `securityChecks` for one line
(`lineNum` is 1-based). -/
def secLineIssues (line path : String) (lineNum : Nat) : List HeuristicIssue :=
  emitIf (rtestCI credReg line)
    { type := .SECURITY, category := "hardcoded-credentials", file := path,
      line := some lineNum, severity := .critical,
      message := "Hardcoded credentials detected", snippet := some (jsTrim line),
      impact := some "Credentials could be exposed in version control",
      remediation := some "Use environment variables or secure configuration" }
  ++ emitIf (rtestCI sqlReg line)
    { type := .SECURITY, category := "sql-injection", file := path,
      line := some lineNum, severity := .critical,
      message := "Potential SQL injection vulnerability", snippet := some (jsTrim line),
      impact := some "Could allow unauthorized database access",
      remediation := some "Use parameterized queries or prepared statements" }
  ++ emitIf (rtestCI codeInjReg line)
    { type := .SECURITY, category := "code-injection", file := path,
      line := some lineNum, severity := .critical,
      message := "Potential code injection vulnerability", snippet := some (jsTrim line),
      impact := some "Could allow arbitrary code execution",
      remediation := some "Validate and sanitize all inputs, avoid dynamic code execution" }
  ++ emitIf (rtestCI cryptoReg line)
    { type := .SECURITY, category := "weak-cryptography", file := path,
      line := some lineNum, severity := .major,
      message := "Weak cryptographic algorithm detected", snippet := some (jsTrim line),
      impact := some "Cryptographic operations may be easily broken",
      remediation := some "Use SHA-256, SHA-3, AES, or other modern algorithms" }
  ++ emitIf (rtestCI randomReg line)
    { type := .SECURITY, category := "weak-randomness", file := path,
      line := some lineNum, severity := .minor,
      message := "Weak random number generation", snippet := some (jsTrim line),
      impact := some "Predictable random values for security-sensitive operations",
      remediation := some "Use cryptographically secure random number generators" }

/-- Body of the `lines.forEach` in `bugChecks` for one line. -/
def bugLineIssues (line path : String) (lineNum : Nat) : List HeuristicIssue :=
  emitIf (rtest nullPtrReg line && !rtest nullGuardReg line && rtest nullMemberReg line)
    { type := .BUGS, category := "null-pointer", file := path,
      line := some lineNum, severity := .major,
      message := "Potential null pointer dereference", snippet := some (jsTrim line),
      impact := some "Runtime errors if object is null/undefined",
      remediation := some "Add null checks before accessing object properties" }
  ++ emitIf (rtestCI resourceReg line)
    { type := .BUGS, category := "resource-leak", file := path,
      line := some lineNum, severity := .major,
      message := "Potential resource leak", snippet := some (jsTrim line),
      impact := some "System resources may not be properly released",
      remediation := some "Use try-with-resources or ensure proper cleanup in finally blocks" }
  ++ emitIf (rtestCI catchReg line)
    { type := .BUGS, category := "error-handling", file := path,
      line := some lineNum, severity := .major,
      message := "Overly broad or empty exception handling", snippet := some (jsTrim line),
      impact := some "Important errors may be silently ignored",
      remediation := some "Catch specific exceptions and handle them appropriately" }
  ++ emitIf (rtest boundsReg line)
    { type := .BUGS, category := "bounds-error", file := path,
      line := some lineNum, severity := .minor,
      message := "Potential array bounds error", snippet := some (jsTrim line),
      impact := some "Index out of bounds exceptions",
      remediation := some "Validate array indices before access" }

/-- Body of the `lines.forEach` in `performanceChecks` for one line. -/
def perfLineIssues (line path : String) (lineNum : Nat) : List HeuristicIssue :=
  emitIf (rtestCI strConcatReg line)
    { type := .PERFORMANCE, category := "string-concatenation", file := path,
      line := some lineNum, severity := .minor,
      message := "String concatenation in loop", snippet := some (jsTrim line),
      impact := some "Poor performance due to string immutability",
      remediation := some "Use StringBuilder, StringBuffer, or array join" }
  ++ emitIf (rtestCI nestedLoopReg line)
    { type := .PERFORMANCE, category := "nested-loops", file := path,
      line := some lineNum, severity := .minor,
      message := "Nested loops detected", snippet := some (jsTrim line),
      impact := some "Potential O(n²) or higher complexity",
      remediation := some "Consider algorithmic improvements or caching" }
  ++ emitIf (rtestCI dbQueryReg line)
    { type := .PERFORMANCE, category := "database-query", file := path,
      line := some lineNum, severity := .major,
      message := "Database query in loop (N+1 problem)", snippet := some (jsTrim line),
      impact := some "Excessive database calls leading to poor performance",
      remediation := some "Batch queries or use joins to fetch data in single call" }

/-- Body of the `lines.forEach` in `styleChecks` for one line. -/
def styleLineIssues (line path : String) (lineNum : Nat) : List HeuristicIssue :=
  emitIf (line.length > 140)
    { type := .STYLE, category := "line-length", file := path,
      line := some lineNum, severity := .minor,
      message := "Line exceeds 140 characters",
      snippet := some (String.mk (line.data.take 180)),
      impact := some "Reduced code readability",
      remediation := some "Break long lines into multiple lines" }
  ++ emitIf (rtest todoReg line)
    { type := .STYLE, category := "technical-debt", file := path,
      line := some lineNum, severity := .info,
      message := "TODO/FIXME comment found", snippet := some (jsTrim line),
      impact := some "Incomplete or temporary code",
      remediation := some "Complete the implementation or create proper tickets" }
  ++ emitIf (rtest namingReg line)
    { type := .STYLE, category := "naming", file := path,
      line := some lineNum, severity := .minor,
      message := "Non-descriptive variable name", snippet := some (jsTrim line),
      impact := some "Reduced code maintainability and readability",
      remediation := some "Use descriptive, meaningful variable names" }

/-- `lines.forEach((line, i) => ...)` with 1-based line numbers, starting at `n`. -/
def scanLines (g : String → String → Nat → List HeuristicIssue) (path : String) :
    List String → Nat → List HeuristicIssue
  | [], _ => []
  | l :: rest, n => g l path n ++ scanLines g path rest (n + 1)

/-- `securityChecks` from `heuristics.ts`. -/
def securityChecks (src path : String) : List HeuristicIssue :=
  scanLines secLineIssues path (splitNl src) 1

/-- `bugChecks` from `heuristics.ts`. -/
def bugChecks (src path : String) : List HeuristicIssue :=
  scanLines bugLineIssues path (splitNl src) 1

/-- `performanceChecks` from `heuristics.ts`. -/
def performanceChecks (src path : String) : List HeuristicIssue :=
  scanLines perfLineIssues path (splitNl src) 1

/-- `styleChecks` from `heuristics.ts`. -/
def styleChecks (src path : String) : List HeuristicIssue :=
  scanLines styleLineIssues path (splitNl src) 1

/-! ### The aggregator `analyzeFiles` -/

/-- The `major` cyclomatic-complexity issue (`c > 40`). -/
def complexityMajorIssue (path : String) (c : Nat) : HeuristicIssue :=
  { type := .COMPLEXITY, category := "cyclomatic-complexity", file := path,
    severity := .major,
    message := "High cyclomatic complexity ~" ++ toString c ++ " (threshold 40)",
    impact := some "Code is difficult to understand, test, and maintain",
    remediation := some "Break down into smaller functions, reduce conditional complexity" }

/-- The `minor` cyclomatic-complexity issue (`20 < c ≤ 40`). -/
def complexityMinorIssue (path : String) (c : Nat) : HeuristicIssue :=
  { type := .COMPLEXITY, category := "cyclomatic-complexity", file := path,
    severity := .minor,
    message := "Elevated complexity ~" ++ toString c ++ " (threshold 20)",
    impact := some "Code complexity is getting high",
    remediation := some "Consider refactoring to reduce complexity" }

/-- The `minor` nesting-depth issue (`nesting > 5`). -/
def nestingIssue (path : String) (nesting : Nat) : HeuristicIssue :=
  { type := .COMPLEXITY, category := "nesting-depth", file := path,
    severity := .minor,
    message := "Deep nesting level " ++ toString nesting ++ " (>5)",
    impact := some "Code is hard to read and understand",
    remediation := some "Use early returns, extract methods, or guard clauses" }

/-- The complexity/nesting block of the per-file loop of `analyzeFiles`. -/
def complexityIssues (f : FileBlob) : List HeuristicIssue :=
  let c := approxComplexity (tokenize f.content)
  let nesting := countMaxNesting f.content
  (if c > 40 then [complexityMajorIssue f.path c]
   else if c > 20 then [complexityMinorIssue f.path c]
   else [])
  ++ emitIf (nesting > 5) (nestingIssue f.path nesting)

/-- All issues pushed for one file by the per-file loop of `analyzeFiles`,
in push order. -/
def fileIssues (f : FileBlob) : List HeuristicIssue :=
  complexityIssues f
  ++ securityChecks f.content f.path
  ++ bugChecks f.content f.path
  ++ performanceChecks f.content f.path
  ++ styleChecks f.content f.path

/-- A JS `Map` (string keys): association list in first-insertion key order;
`set` on an existing key updates the value in place. -/
def mapSet {α : Type} (m : List (String × α)) (k : String) (v : α) :
    List (String × α) :=
  if m.any (fun p => p.1 = k) then
    m.map (fun p => if p.1 = k then (k, v) else p)
  else m ++ [(k, v)]

/-- `Map.get`. -/
def mapGet {α : Type} (m : List (String × α)) (k : String) : Option α :=
  (m.find? (fun p => p.1 = k)).map (fun p => p.2)

/-- `Map.keys()` (first-insertion order). -/
def mapKeys {α : Type} (m : List (String × α)) : List String :=
  m.map (fun p => p.1)

/-- State accumulated by the per-file loop of `analyzeFiles`. -/
structure PerFileState where
  issues : List HeuristicIssue
  filesAnalyzed : Nat
  bytesAnalyzed : Nat
  tokenMap : List (String × List String)
  shingleMap : List (String × List String)
deriving Repr

/-- One iteration of the per-file loop: stats, tokens, complexity/nesting and
scanner issues, shingle set. `f.size || f.content.length` reads the content
length when `size` is `0` (falsy). -/
def perFileStep (st : PerFileState) (f : FileBlob) : PerFileState :=
  let toks := tokenize f.content
  { issues := st.issues ++ fileIssues f,
    filesAnalyzed := st.filesAnalyzed + 1,
    bytesAnalyzed := st.bytesAnalyzed + (if f.size = 0 then f.content.length else f.size),
    tokenMap := mapSet st.tokenMap f.path toks,
    shingleMap := mapSet st.shingleMap f.path (mkSet (shingles toks 30)) }

/-- The whole per-file loop of `analyzeFiles`. -/
def perFilePass (files : List FileBlob) : PerFileState :=
  files.foldl perFileStep ⟨[], 0, 0, [], []⟩

/-- `⌊100·q + 1/2⌋` computed on the numerator/denominator: the integer of
hundredths `q.toFixed(2)` rounds to, for the nonnegative `q` produced by
`jaccard` (`toFixed` rounds half away from zero, hence half up here). -/
def round2Int (q : ℚ) : ℤ :=
  (200 * q.num + (q.den : ℤ)) / (2 * (q.den : ℤ))

/-- `Number(q.toFixed(2))` for the nonnegative similarities: decimal rounding
to two places. -/
def round2 (q : ℚ) : ℚ :=
  Rat.divInt (round2Int q) 100

/-- Two-digit zero-padded decimal numeral. -/
def pad2 (n : Nat) : String :=
  if n < 10 then "0" ++ toString n else toString n

/-- The string `q.toFixed(2)` for `q ∈ [0,1]`. -/
def toFixed2 (q : ℚ) : String :=
  let n := (round2Int q).toNat
  toString (n / 100) ++ "." ++ pad2 (n % 100)

/-- State of the near-duplicate detection loop. `compared` instruments the
loop with the list of index pairs for which a Jaccard similarity was actually
computed (in loop order); the source holds no such list, and nothing else
reads it. -/
structure PairState where
  pairs : Nat
  compared : List (Nat × Nat)
  clusters : List DuplicateCluster
  dupIssues : List HeuristicIssue
deriving Repr

/-- The companion `DUPLICATION` issue pushed for a qualifying pair. -/
def dupIssue (pi pj : String) (sim : ℚ) : HeuristicIssue :=
  { type := .DUPLICATION, category := "code-duplication", file := pi,
    severity := .minor,
    message := "Near-duplicate with " ++ pj ++ " (Jaccard ≈ " ++ toFixed2 sim ++ ")",
    impact := some "Duplicated code increases maintenance burden",
    remediation := some "Extract common code into shared functions or modules" }

/-- The Jaccard similarity the pair loop computes for index pair `(i, j)`. -/
def simAt (paths : List String) (shingleMap : List (String × List String))
    (i j : Nat) : ℚ :=
  jaccard ((mapGet shingleMap (paths.getD i "")).getD [])
          ((mapGet shingleMap (paths.getD j "")).getD [])

/-- The body of the inner pair loop once the budget check passed: increments
`pairs`, computes the similarity and, when it reaches `0.6`, pushes one
cluster and one companion `DUPLICATION` issue. -/
def pairStep (paths : List String) (shingleMap : List (String × List String))
    (i j : Nat) (st : PairState) : PairState :=
  let sim := simAt paths shingleMap i j
  let st1 : PairState :=
    { st with pairs := st.pairs + 1, compared := st.compared ++ [(i, j)] }
  if Rat.divInt 3 5 ≤ sim then -- sim >= 0.6
    { st1 with
      clusters := st1.clusters ++
        [{ files := [paths.getD i "", paths.getD j ""], similarity := round2 sim }],
      dupIssues := st1.dupIssues ++
        [dupIssue (paths.getD i "") (paths.getD j "") sim] }
  else st1

/-- The inner (`j`) pair loop. `if (pairs++ > maxPairs) break;`: the counter
is incremented on every iteration; when its previous value already exceeded
the budget the row is abandoned. The fuel dominates `paths.length - j`. -/
def innerLoop (paths : List String) (shingleMap : List (String × List String))
    (maxPairs : Nat) : Nat → Nat → Nat → PairState → PairState
  | 0, _, _, st => st
  | fuel + 1, i, j, st =>
    if j ≥ paths.length then st
    else if st.pairs > maxPairs then { st with pairs := st.pairs + 1 }
    else innerLoop paths shingleMap maxPairs fuel i (j + 1)
      (pairStep paths shingleMap i j st)

/-- The outer (`i`) pair loop; a `break` of the inner loop does not stop it. -/
def outerLoop (paths : List String) (shingleMap : List (String × List String))
    (maxPairs : Nat) : Nat → Nat → PairState → PairState
  | 0, _, st => st
  | fuel + 1, i, st =>
    if i ≥ paths.length then st
    else outerLoop paths shingleMap maxPairs fuel (i + 1)
      (innerLoop paths shingleMap maxPairs (paths.length + 1) i (i + 1) st)

/-- The loop state before the first pair iteration. -/
def pairInit : PairState := { pairs := 0, compared := [], clusters := [], dupIssues := [] }

/-- The whole near-duplicate pass of `analyzeFiles`. -/
def pairPhase (shingleMap : List (String × List String)) (maxPairs : Nat) :
    PairState :=
  let paths := mapKeys shingleMap
  outerLoop paths shingleMap maxPairs (paths.length + 1) 0 pairInit

/-- `analyzeFiles` with its intermediate states exposed. `opts` models the
optional `{maxPairs}` argument; `none` selects the default budget 8000. -/
def analyzeFull (files : List FileBlob) (opts : Option Nat) :
    PerFileState × PairState :=
  let pf := perFilePass files
  (pf, pairPhase pf.shingleMap (opts.getD 8000))

/-- `analyzeFiles` from `heuristics.ts`. -/
def analyzeFiles (files : List FileBlob) (opts : Option Nat) : HeuristicSummary :=
  let full := analyzeFull files opts
  { issues := full.1.issues ++ full.2.dupIssues,
    duplicateClusters := full.2.clusters,
    stats := ⟨full.1.filesAnalyzed, full.1.bytesAnalyzed⟩ }

/-! ### Failure-explicit variant

The only operations in `analyzeFiles` that could raise at run time are the two
non-null assertions `shingleMap.get(paths[i])!` in the pair loop; everything
else is pure pattern matching over strings. The `E` variant makes those
lookups fallible. -/

/-- `pairStep` with the two `Map.get` non-null assertions made explicit. -/
def pairStepE (paths : List String) (shingleMap : List (String × List String))
    (i j : Nat) (st : PairState) : Except String PairState :=
  match mapGet shingleMap (paths.getD i ""), mapGet shingleMap (paths.getD j "") with
  | some _, some _ => .ok (pairStep paths shingleMap i j st)
  | _, _ => .error "shingleMap lookup failed"

/-- Failure-explicit inner pair loop. -/
def innerLoopE (paths : List String) (shingleMap : List (String × List String))
    (maxPairs : Nat) : Nat → Nat → Nat → PairState → Except String PairState
  | 0, _, _, st => .ok st
  | fuel + 1, i, j, st =>
    if j ≥ paths.length then .ok st
    else if st.pairs > maxPairs then .ok { st with pairs := st.pairs + 1 }
    else match pairStepE paths shingleMap i j st with
      | .ok st' => innerLoopE paths shingleMap maxPairs fuel i (j + 1) st'
      | .error e => .error e

/-- Failure-explicit outer pair loop. -/
def outerLoopE (paths : List String) (shingleMap : List (String × List String))
    (maxPairs : Nat) : Nat → Nat → PairState → Except String PairState
  | 0, _, st => .ok st
  | fuel + 1, i, st =>
    if i ≥ paths.length then .ok st
    else match innerLoopE paths shingleMap maxPairs (paths.length + 1) i (i + 1) st with
      | .ok st' => outerLoopE paths shingleMap maxPairs fuel (i + 1) st'
      | .error e => .error e

/-- Failure-explicit `analyzeFiles`. -/
def analyzeFilesE (files : List FileBlob) (opts : Option Nat) :
    Except String HeuristicSummary :=
  let pf := perFilePass files
  let paths := mapKeys pf.shingleMap
  match outerLoopE paths pf.shingleMap (opts.getD 8000) (paths.length + 1) 0
      pairInit with
  | .ok ps => .ok
      { issues := pf.issues ++ ps.dupIssues,
        duplicateClusters := ps.clusters,
        stats := ⟨pf.filesAnalyzed, pf.bytesAnalyzed⟩ }
  | .error e => .error e

/-! ## Theorems -/

/-- The `jaccard` quotient agrees with the division on `ℚ` (sanity link
between `Rat.divInt` and `/`). -/
theorem jaccard_eq_div (a b : List String) :
    jaccard a b =
      (if (a.length + b.length - (a.filter (fun s => s ∈ b)).length) = 0 then 0
       else ((a.filter (fun s => s ∈ b)).length : ℚ) /
            ((a.length + b.length - (a.filter (fun s => s ∈ b)).length : Nat) : ℚ)) := by
  simp only [jaccard, Rat.divInt_eq_div]
  norm_num

theorem mem_emitIf {b : Bool} {tmpl is : HeuristicIssue}
    (h : is ∈ emitIf b tmpl) : is = tmpl := by
  unfold emitIf at h
  split at h
  · simpa using h
  · simp at h

theorem secLineIssues_props {l p : String} {n : Nat} {is : HeuristicIssue}
    (h : is ∈ secLineIssues l p n) :
    is.type = .SECURITY ∧ is.line = some n := by
  simp only [secLineIssues, List.mem_append] at h
  rcases h with ((((h | h) | h) | h) | h) <;> (rw [mem_emitIf h]; exact ⟨rfl, rfl⟩)

theorem bugLineIssues_props {l p : String} {n : Nat} {is : HeuristicIssue}
    (h : is ∈ bugLineIssues l p n) :
    is.type = .BUGS ∧ is.line = some n := by
  simp only [bugLineIssues, List.mem_append] at h
  rcases h with (((h | h) | h) | h) <;> (rw [mem_emitIf h]; exact ⟨rfl, rfl⟩)

theorem perfLineIssues_props {l p : String} {n : Nat} {is : HeuristicIssue}
    (h : is ∈ perfLineIssues l p n) :
    is.type = .PERFORMANCE ∧ is.line = some n := by
  simp only [perfLineIssues, List.mem_append] at h
  rcases h with ((h | h) | h) <;> (rw [mem_emitIf h]; exact ⟨rfl, rfl⟩)

theorem styleLineIssues_props {l p : String} {n : Nat} {is : HeuristicIssue}
    (h : is ∈ styleLineIssues l p n) :
    is.type = .STYLE ∧ is.line = some n := by
  simp only [styleLineIssues, List.mem_append] at h
  rcases h with ((h | h) | h) <;> (rw [mem_emitIf h]; exact ⟨rfl, rfl⟩)

theorem complexityIssues_props {f : FileBlob} {is : HeuristicIssue}
    (h : is ∈ complexityIssues f) :
    is.type = .COMPLEXITY ∧ is.line = none := by
  simp only [complexityIssues, List.mem_append] at h
  rcases h with h | h
  · split_ifs at h <;>
      (first
        | (rw [List.mem_singleton] at h; rw [h]; exact ⟨rfl, rfl⟩)
        | simp at h)
  · rw [mem_emitIf h]; exact ⟨rfl, rfl⟩

/-- Claim C1 counterexample: the spec's expected token list for `"a  b\n\nc"`
is not what `tokenize` returns (whitespace-only tokens are kept, since
`filter(Boolean)` drops only empty strings). -/
theorem tokenize_whitespace_cx : tokenize "a  b\n\nc" ≠ ["a", "b", "c"] := by decide

/-- Claim C1 (amended): `tokenize` drops all empty tokens, but keeps
whitespace-only tokens; on `"a  b\n\nc"` it returns the words interleaved
with the whitespace separator tokens, in order. -/
theorem tokenize_amended :
    (∀ s : String, "" ∉ tokenize s) ∧
    tokenize "a  b\n\nc" = ["a", " ", " ", "b", "\n", "\n", "c"] := by
  constructor
  · intro s h
    have := List.of_mem_filter h
    simp at this
  · decide

/-- Claim C4: fewer than `k` tokens yield no shingles, and the Jaccard
similarity of two empty sets is `0`. -/
theorem shingle_floor (tokens : List String) (k : Nat) (h : tokens.length < k) :
    shingles tokens k = [] ∧ jaccard [] [] = 0 := by
  refine ⟨?_, rfl⟩
  simp [shingles, h]

/-- Witness for C4 at a concrete short token list. -/
theorem shingle_floor_witness :
    (["a"] : List String).length < 30 ∧ shingles ["a"] 30 = [] ∧ jaccard [] [] = 0 :=
  ⟨by decide, (shingle_floor ["a"] 30 (by decide)).1, (shingle_floor ["a"] 30 (by decide)).2⟩

theorem inter_length_comm (a b : List String) (ha : a.Nodup) (hb : b.Nodup) :
    (a.filter (fun s => s ∈ b)).length = (b.filter (fun s => s ∈ a)).length := by
  have h1 : (a.filter (fun s => s ∈ b)).Nodup := ha.filter _
  have h2 : (b.filter (fun s => s ∈ a)).Nodup := hb.filter _
  rw [← List.toFinset_card_of_nodup h1, ← List.toFinset_card_of_nodup h2,
      List.toFinset_filter, List.toFinset_filter]
  have key : ∀ u v : List String,
      u.toFinset.filter (fun s => (decide (s ∈ v) : Bool)) = u.toFinset ∩ v.toFinset := by
    intro u v
    ext x
    simp [List.mem_toFinset]
  rw [key a b, key b a, Finset.inter_comm]

/-- Claim C9: `jaccard` is symmetric on shingle sets (duplicate-free lists). -/
theorem jaccard_symm (a b : List String) (ha : a.Nodup) (hb : b.Nodup) :
    jaccard a b = jaccard b a := by
  simp only [jaccard]
  rw [inter_length_comm a b ha hb, Nat.add_comm a.length b.length]

/-- Witness for C9 at concrete sets. -/
theorem jaccard_symm_witness :
    (["x"] : List String).Nodup ∧ (["x", "y"] : List String).Nodup ∧
    jaccard ["x"] ["x", "y"] = jaccard ["x", "y"] ["x"] :=
  ⟨by decide, by decide, jaccard_symm ["x"] ["x", "y"] (by decide) (by decide)⟩

/-! ### Locating line-attributed issues -/

/-- Issues of lines numbered `≥ n` never carry a line number `< n`. -/
theorem scanLines_filter_line_out
    (g : String → String → Nat → List HeuristicIssue) (path : String)
    (hg : ∀ l n is, is ∈ g l path n → is.line = some n) :
    ∀ (ls : List String) (n L : Nat), L < n →
      (scanLines g path ls n).filter (fun is => is.line = some L) = [] := by
  intro ls
  induction ls with
  | nil => intro n L _; rfl
  | cons l rest ih =>
    intro n L hL
    simp only [scanLines, List.filter_append]
    rw [ih (n + 1) L (by omega), List.append_nil]
    rw [List.filter_eq_nil_iff]
    intro a ha
    have := hg l n a ha
    simp only [this, decide_eq_true_eq, Option.some.injEq]
    omega

/-- Filtering a line scanner's output for the issues attributed to line `L`
keeps exactly the issues generated from the `L`-th line. -/
theorem scanLines_filter_line_at
    (g : String → String → Nat → List HeuristicIssue) (path : String)
    (hg : ∀ l n is, is ∈ g l path n → is.line = some n) :
    ∀ (ls : List String) (n L : Nat) (l : String), n ≤ L → ls[L - n]? = some l →
      (scanLines g path ls n).filter (fun is => is.line = some L) =
        (g l path L).filter (fun is => is.line = some L) := by
  intro ls
  induction ls with
  | nil => intro n L l _ hidx; simp at hidx
  | cons l0 rest ih =>
    intro n L l hnL hidx
    simp only [scanLines, List.filter_append]
    by_cases h : n = L
    · subst h
      rw [Nat.sub_self] at hidx
      simp only [List.getElem?_cons_zero, Option.some.injEq] at hidx
      rw [scanLines_filter_line_out g path hg rest (n + 1) n (by omega),
          List.append_nil, hidx]
    · have hstep : L - n = (L - (n + 1)) + 1 := by omega
      rw [hstep] at hidx
      simp only [List.getElem?_cons_succ] at hidx
      rw [ih (n + 1) L l (by omega) hidx]
      have hnil : (g l0 path n).filter (fun is => is.line = some L) = [] := by
        rw [List.filter_eq_nil_iff]
        intro a ha
        have := hg l0 n a ha
        simp only [this, decide_eq_true_eq, Option.some.injEq]
        omega
      rw [hnil, List.nil_append]

/-- The summary produced for a one-file batch: the file's issues, no
duplicate clusters, and that file's stats. -/
theorem analyzeFiles_single (f : FileBlob) (opts : Option Nat) :
    analyzeFiles [f] opts =
      { issues := fileIssues f, duplicateClusters := [],
        stats := ⟨1, if f.size = 0 then f.content.length else f.size⟩ } := by
  simp [analyzeFiles, analyzeFull, perFilePass, perFileStep, pairPhase, mapKeys,
        mapSet, outerLoop, innerLoop, pairInit]

/-- The single `SECURITY/hardcoded-credentials` issue raised for the line
`const password = "hunter2";` at (1-based) line `L` of file `path`. -/
def credIssueAt (path : String) (L : Nat) : HeuristicIssue :=
  { type := .SECURITY, category := "hardcoded-credentials", file := path,
    line := some L, severity := .critical,
    message := "Hardcoded credentials detected",
    snippet := some "const password = \"hunter2\";",
    impact := some "Credentials could be exposed in version control",
    remediation := some "Use environment variables or secure configuration" }

theorem secLine_magic (path : String) (L : Nat) :
    secLineIssues "const password = \"hunter2\";" path L = [credIssueAt path L] := rfl

theorem bugLine_magic (path : String) (L : Nat) :
    bugLineIssues "const password = \"hunter2\";" path L = [] := rfl

theorem perfLine_magic (path : String) (L : Nat) :
    perfLineIssues "const password = \"hunter2\";" path L = [] := rfl

theorem styleLine_magic (path : String) (L : Nat) :
    styleLineIssues "const password = \"hunter2\";" path L = [] := rfl

/-- Claim C6: a file whose `L`-th line is exactly `const password = "hunter2";`
gets, at that line, exactly one issue: a critical `SECURITY` /
`hardcoded-credentials` finding with the 1-based line number `L`. -/
theorem security_line_scenario (f : FileBlob) (L : Nat) (opts : Option Nat)
    (hL : 1 ≤ L)
    (hline : (splitNl f.content)[L - 1]? = some "const password = \"hunter2\";") :
    (analyzeFiles [f] opts).issues.filter (fun is => is.line = some L) =
      [credIssueAt f.path L] := by
  rw [analyzeFiles_single]
  show (fileIssues f).filter _ = _
  simp only [fileIssues, List.filter_append]
  have hcomp : (complexityIssues f).filter (fun is => is.line = some L) = [] := by
    rw [List.filter_eq_nil_iff]
    intro a ha
    have := (complexityIssues_props ha).2
    simp [this]
  have hsec : (securityChecks f.content f.path).filter
      (fun is => is.line = some L) = [credIssueAt f.path L] := by
    unfold securityChecks
    rw [scanLines_filter_line_at secLineIssues f.path
        (fun l n is h => (secLineIssues_props h).2) (splitNl f.content) 1 L _ hL hline]
    rw [secLine_magic]
    simp [credIssueAt]
  have hbug : (bugChecks f.content f.path).filter
      (fun is => is.line = some L) = [] := by
    unfold bugChecks
    rw [scanLines_filter_line_at bugLineIssues f.path
        (fun l n is h => (bugLineIssues_props h).2) (splitNl f.content) 1 L _ hL hline]
    rw [bugLine_magic]
    rfl
  have hperf : (performanceChecks f.content f.path).filter
      (fun is => is.line = some L) = [] := by
    unfold performanceChecks
    rw [scanLines_filter_line_at perfLineIssues f.path
        (fun l n is h => (perfLineIssues_props h).2) (splitNl f.content) 1 L _ hL hline]
    rw [perfLine_magic]
    rfl
  have hstyle : (styleChecks f.content f.path).filter
      (fun is => is.line = some L) = [] := by
    unfold styleChecks
    rw [scanLines_filter_line_at styleLineIssues f.path
        (fun l n is h => (styleLineIssues_props h).2) (splitNl f.content) 1 L _ hL hline]
    rw [styleLine_magic]
    rfl
  rw [hcomp, hsec, hbug, hperf, hstyle]
  simp

/-- A concrete two-line file whose second line is the credential assignment. -/
def credFileC6 : FileBlob :=
  { path := "w.js", language := none,
    content := "x = 1\nconst password = \"hunter2\";", size := 5 }

/-- Witness for C6 on a concrete two-line file. -/
theorem security_line_scenario_witness :
    1 ≤ 2 ∧
    (splitNl credFileC6.content)[2 - 1]? = some "const password = \"hunter2\";" ∧
    (analyzeFiles [credFileC6] none).issues.filter (fun is => is.line = some 2) =
      [credIssueAt "w.js" 2] :=
  ⟨by decide, by decide,
    security_line_scenario credFileC6 2 none (by decide) (by decide)⟩

/-! ### Complexity thresholds (C2) -/

/-- Number of branch tokens in a file's token stream. -/
def branchTokenCount (f : FileBlob) : Nat :=
  ((tokenize f.content).filter (fun t => t ∈ BRANCH_TOKENS)).length

/-- The `COMPLEXITY`-typed issues `analyzeFiles` reports for a one-file batch. -/
def complexityFindings (f : FileBlob) : List HeuristicIssue :=
  (analyzeFiles [f] none).issues.filter (fun is => is.type = .COMPLEXITY)

theorem approxComplexity_eq_branchCount (f : FileBlob) :
    approxComplexity (tokenize f.content) = branchTokenCount f + 1 := rfl

theorem mem_scanLines {g : String → String → Nat → List HeuristicIssue}
    {path : String} {ls : List String} {n : Nat} {is : HeuristicIssue}
    (h : is ∈ scanLines g path ls n) : ∃ l m, is ∈ g l path m := by
  induction ls generalizing n with
  | nil => simp [scanLines] at h
  | cons l rest ih =>
    simp only [scanLines, List.mem_append] at h
    rcases h with h | h
    · exact ⟨l, n, h⟩
    · exact ih h

/-- Only the complexity/nesting block contributes `COMPLEXITY`-typed issues. -/
theorem fileIssues_filter_complexity (f : FileBlob) :
    (fileIssues f).filter (fun is => is.type = .COMPLEXITY) = complexityIssues f := by
  simp only [fileIssues, List.filter_append]
  have h0 : (complexityIssues f).filter (fun is => is.type = .COMPLEXITY) =
      complexityIssues f := by
    rw [List.filter_eq_self]
    intro a ha
    simp [(complexityIssues_props ha).1]
  have h1 : (securityChecks f.content f.path).filter
      (fun is => is.type = .COMPLEXITY) = [] := by
    rw [List.filter_eq_nil_iff]
    intro a ha
    obtain ⟨l, m, hm⟩ := mem_scanLines ha
    simp [(secLineIssues_props hm).1]
  have h2 : (bugChecks f.content f.path).filter
      (fun is => is.type = .COMPLEXITY) = [] := by
    rw [List.filter_eq_nil_iff]
    intro a ha
    obtain ⟨l, m, hm⟩ := mem_scanLines ha
    simp [(bugLineIssues_props hm).1]
  have h3 : (performanceChecks f.content f.path).filter
      (fun is => is.type = .COMPLEXITY) = [] := by
    rw [List.filter_eq_nil_iff]
    intro a ha
    obtain ⟨l, m, hm⟩ := mem_scanLines ha
    simp [(perfLineIssues_props hm).1]
  have h4 : (styleChecks f.content f.path).filter
      (fun is => is.type = .COMPLEXITY) = [] := by
    rw [List.filter_eq_nil_iff]
    intro a ha
    obtain ⟨l, m, hm⟩ := mem_scanLines ha
    simp [(styleLineIssues_props hm).1]
  rw [h0, h1, h2, h3, h4]
  simp

theorem complexityFindings_eq (f : FileBlob) :
    complexityFindings f = complexityIssues f := by
  rw [complexityFindings, analyzeFiles_single]
  exact fileIssues_filter_complexity f

/-- Claim C2 (amended): with the complexity score being the branch-token count
plus one, a file with `N` branch tokens (and nesting at most 5) gets a `major`
COMPLEXITY issue (message citing threshold 40) when `N = 41`, a `minor` issue
when `N = 21` and also when `N = 20` (score `21 > 20`), and no COMPLEXITY
issue only when `N ≤ 19`. -/
theorem complexity_thresholds_amended (f : FileBlob)
    (hnest : countMaxNesting f.content ≤ 5) :
    (branchTokenCount f = 41 →
      complexityFindings f = [complexityMajorIssue f.path 42] ∧
      (complexityMajorIssue f.path 42).message =
        "High cyclomatic complexity ~42 (threshold 40)") ∧
    (branchTokenCount f = 21 →
      complexityFindings f = [complexityMinorIssue f.path 22]) ∧
    (branchTokenCount f = 20 →
      complexityFindings f = [complexityMinorIssue f.path 21]) ∧
    (branchTokenCount f ≤ 19 → complexityFindings f = []) := by
  have hbase : complexityFindings f = complexityIssues f := complexityFindings_eq f
  have hnest5 : (countMaxNesting f.content > 5) = False := by
    simp only [eq_iff_iff, iff_false]
    omega
  refine ⟨?_, ?_, ?_, ?_⟩
  · intro h
    refine ⟨?_, rfl⟩
    rw [hbase]
    unfold complexityIssues
    rw [approxComplexity_eq_branchCount, h]
    simp [emitIf, hnest5]
  · intro h
    rw [hbase]
    unfold complexityIssues
    rw [approxComplexity_eq_branchCount, h]
    simp [emitIf, hnest5]
  · intro h
    rw [hbase]
    unfold complexityIssues
    rw [approxComplexity_eq_branchCount, h]
    simp [emitIf, hnest5]
  · intro h
    rw [hbase]
    unfold complexityIssues
    rw [approxComplexity_eq_branchCount]
    have h40 : (branchTokenCount f + 1 > 40) = False := by
      simp only [eq_iff_iff, iff_false]
      omega
    have h20 : (branchTokenCount f + 1 > 20) = False := by
      simp only [eq_iff_iff, iff_false]
      omega
    simp [emitIf, hnest5, h40, h20]

/-- A file whose token stream holds exactly twenty branch tokens. -/
def ifFile20 : FileBlob :=
  { path := "c.js", content := " ".intercalate (List.replicate 20 "if"), size := 0 }

/-- Claim C2 counterexample: twenty branch tokens (score `21`) still produce a
COMPLEXITY issue, contradicting "no COMPLEXITY issue at N = 20". -/
theorem complexity_threshold20_cx :
    branchTokenCount ifFile20 = 20 ∧
    countMaxNesting ifFile20.content ≤ 5 ∧
    (analyzeFiles [ifFile20] none).issues.filter
      (fun is => is.type = .COMPLEXITY) ≠ [] := by
  refine ⟨by decide, by decide, by decide⟩

/-- Witness for the amended C2 at a concrete forty-one-branch-token file. -/
def ifFile41 : FileBlob :=
  { path := "d.js", content := " ".intercalate (List.replicate 41 "if"), size := 0 }

theorem complexity_thresholds_amended_witness :
    countMaxNesting ifFile41.content ≤ 5 ∧ branchTokenCount ifFile41 = 41 ∧
    complexityFindings ifFile41 = [complexityMajorIssue "d.js" 42] :=
  ⟨by decide, by decide,
    ((complexity_thresholds_amended ifFile41 (by decide)).1 (by decide)).1⟩

/-! ### The pair loop: counters, budget, and totality (C3, C7) -/

theorem pairStep_pairs (P : List String) (M : List (String × List String))
    (i j : Nat) (st : PairState) :
    (pairStep P M i j st).pairs = st.pairs + 1 := by
  simp only [pairStep]
  split <;> rfl

theorem pairStep_compared (P : List String) (M : List (String × List String))
    (i j : Nat) (st : PairState) :
    (pairStep P M i j st).compared = st.compared ++ [(i, j)] := by
  simp only [pairStep]
  split <;> rfl

/-- `triPairs n` is the number of unordered pairs over `n` items,
row by row as the double loop walks them. -/
def triPairs : Nat → Nat
  | 0 => 0
  | m + 1 => m + triPairs m

theorem two_mul_triPairs_succ (n : Nat) : 2 * triPairs (n + 1) = (n + 1) * n := by
  induction n with
  | zero => rfl
  | succ k ih =>
    simp only [triPairs] at ih ⊢
    rw [Nat.mul_add, ih]
    ring

theorem two_mul_triPairs (n : Nat) : 2 * triPairs n = n * (n - 1) := by
  cases n with
  | zero => rfl
  | succ m => simpa using two_mul_triPairs_succ m

theorem innerLoop_pairs_lb (P : List String) (M : List (String × List String))
    (mp i : Nat) :
    ∀ (fuel j : Nat) (st : PairState), P.length - j ≤ fuel →
      min (st.pairs + (P.length - j)) (mp + 1) ≤ (innerLoop P M mp fuel i j st).pairs := by
  intro fuel
  induction fuel with
  | zero =>
    intro j st h
    simp only [innerLoop]
    omega
  | succ n ih =>
    intro j st h
    simp only [innerLoop]
    split_ifs with hj hb
    · omega
    · show min (st.pairs + (P.length - j)) (mp + 1) ≤ st.pairs + 1
      omega
    · have hrec := ih (j + 1) (pairStep P M i j st) (by omega)
      rw [pairStep_pairs] at hrec
      omega

theorem innerLoop_inv (P : List String) (M : List (String × List String))
    (mp i : Nat) :
    ∀ (fuel j : Nat) (st : PairState), st.compared.length = min st.pairs (mp + 1) →
      (innerLoop P M mp fuel i j st).compared.length =
        min (innerLoop P M mp fuel i j st).pairs (mp + 1) := by
  intro fuel
  induction fuel with
  | zero => intro j st h; simpa only [innerLoop] using h
  | succ n ih =>
    intro j st h
    simp only [innerLoop]
    split_ifs with hj hb
    · exact h
    · show st.compared.length = min (st.pairs + 1) (mp + 1)
      omega
    · apply ih
      rw [pairStep_compared, pairStep_pairs, List.length_append]
      simp only [List.length_cons, List.length_nil]
      omega

theorem outerLoop_pairs_lb (P : List String) (M : List (String × List String))
    (mp : Nat) :
    ∀ (fuel i : Nat) (st : PairState), P.length - i ≤ fuel →
      min (st.pairs + triPairs (P.length - i)) (mp + 1) ≤
        (outerLoop P M mp fuel i st).pairs := by
  intro fuel
  induction fuel with
  | zero =>
    intro i st h
    have h0 : P.length - i = 0 := by omega
    simp only [outerLoop, h0, triPairs]
    omega
  | succ n ih =>
    intro i st h
    simp only [outerLoop]
    split_ifs with hi
    · have h0 : P.length - i = 0 := by omega
      simp only [h0, triPairs]
      omega
    · have hinner := innerLoop_pairs_lb P M mp i (P.length + 1) (i + 1) st (by omega)
      have hrec := ih (i + 1) (innerLoop P M mp (P.length + 1) i (i + 1) st) (by omega)
      have htri : triPairs (P.length - i) =
          (P.length - (i + 1)) + triPairs (P.length - (i + 1)) := by
        have hs : P.length - i = (P.length - (i + 1)) + 1 := by omega
        rw [hs]
        rfl
      omega

theorem outerLoop_inv (P : List String) (M : List (String × List String))
    (mp : Nat) :
    ∀ (fuel i : Nat) (st : PairState), st.compared.length = min st.pairs (mp + 1) →
      (outerLoop P M mp fuel i st).compared.length =
        min (outerLoop P M mp fuel i st).pairs (mp + 1) := by
  intro fuel
  induction fuel with
  | zero => intro i st h; simpa only [outerLoop] using h
  | succ n ih =>
    intro i st h
    simp only [outerLoop]
    split_ifs with hi
    · exact h
    · exact ih (i + 1) _ (innerLoop_inv P M mp i (P.length + 1) (i + 1) st h)

/-- Once the budget is smaller than the number of pairs, exactly
`maxPairs + 1` similarities get computed. -/
theorem pairPhase_compared_length (M : List (String × List String)) (mp : Nat)
    (h : mp < triPairs (mapKeys M).length) :
    (pairPhase M mp).compared.length = mp + 1 := by
  show (outerLoop (mapKeys M) M mp ((mapKeys M).length + 1) 0 pairInit).compared.length = _
  have hinv := outerLoop_inv (mapKeys M) M mp ((mapKeys M).length + 1) 0 pairInit rfl
  have hlb := outerLoop_pairs_lb (mapKeys M) M mp ((mapKeys M).length + 1) 0 pairInit
    (by omega)
  have hip : pairInit.pairs = 0 := rfl
  simp only [Nat.sub_zero, hip] at hlb
  omega

/-! ### Keys of the path-indexed maps -/

theorem mapKeys_mapSet_not_mem {α : Type} {m : List (String × α)} {k : String}
    (v : α) (h : k ∉ mapKeys m) :
    mapKeys (mapSet m k v) = mapKeys m ++ [k] := by
  unfold mapSet
  have hany : m.any (fun p => p.1 = k) = false := by
    rw [List.any_eq_false]
    intro p hp hpk
    exact h (by
      simp only [mapKeys, List.mem_map]
      exact ⟨p, hp, by simpa using hpk⟩)
  rw [if_neg (by simp [hany])]
  simp [mapKeys]

theorem foldl_mapSet_keys (val : FileBlob → List String) :
    ∀ (files : List FileBlob) (m : List (String × List String)),
      (∀ f ∈ files, f.path ∉ mapKeys m) → (files.map FileBlob.path).Nodup →
      mapKeys (files.foldl (fun acc f => mapSet acc f.path (val f)) m) =
        mapKeys m ++ files.map FileBlob.path := by
  intro files
  induction files with
  | nil => intro m _ _; simp
  | cons f rest ih =>
    intro m hfresh hnodup
    simp only [List.map_cons, List.nodup_cons] at hnodup
    have hstep : mapKeys (mapSet m f.path (val f)) = mapKeys m ++ [f.path] :=
      mapKeys_mapSet_not_mem (val f) (hfresh f (by simp))
    have hfresh' : ∀ g ∈ rest, g.path ∉ mapKeys (mapSet m f.path (val f)) := by
      intro g hg
      rw [hstep]
      simp only [List.mem_append, List.mem_singleton]
      rintro (hh | hh)
      · exact hfresh g (by simp [hg]) hh
      · exact hnodup.1 (hh ▸ List.mem_map_of_mem FileBlob.path hg)
    simp only [List.foldl_cons]
    rw [ih (mapSet m f.path (val f)) hfresh' hnodup.2, hstep]
    simp

theorem perFilePass_shingleMap_core :
    ∀ (fs : List FileBlob) (st : PerFileState),
      (fs.foldl perFileStep st).shingleMap =
        fs.foldl (fun m f => mapSet m f.path (mkSet (shingles (tokenize f.content) 30)))
          st.shingleMap := by
  intro fs
  induction fs with
  | nil => intro st; rfl
  | cons f rest ih =>
    intro st
    simp only [List.foldl_cons]
    rw [ih]
    rfl

/-- With pairwise distinct paths the duplicate pass sees one key per file,
in batch order. -/
theorem perFilePass_keys (files : List FileBlob)
    (h : (files.map FileBlob.path).Nodup) :
    mapKeys (perFilePass files).shingleMap = files.map FileBlob.path := by
  unfold perFilePass
  rw [perFilePass_shingleMap_core]
  have := foldl_mapSet_keys (fun f => mkSet (shingles (tokenize f.content) 30))
    files [] (by simp [mapKeys]) h
  simpa [mapKeys] using this

/-! ### The failure-explicit run never errors -/

theorem mapGet_isSome_of_mem_keys {α : Type} :
    ∀ (m : List (String × α)) (k : String),
      k ∈ mapKeys m → (mapGet m k).isSome := by
  intro m
  induction m with
  | nil => intro k h; simp [mapKeys] at h
  | cons p rest ih =>
    intro k h
    by_cases hpk : p.1 = k
    · simp [mapGet, List.find?_cons, hpk]
    · simp only [mapKeys, List.map_cons, List.mem_cons] at h
      rcases h with h | h
      · exact absurd h.symm hpk
      · have hrest := ih k h
        have hd : (decide (p.1 = k)) = false := by simpa using hpk
        unfold mapGet at hrest ⊢
        rw [List.find?_cons, hd]
        exact hrest

theorem pairStepE_eq (P : List String) (M : List (String × List String))
    (i j : Nat) (st : PairState)
    (hi : (mapGet M (P.getD i "")).isSome) (hj : (mapGet M (P.getD j "")).isSome) :
    pairStepE P M i j st = .ok (pairStep P M i j st) := by
  obtain ⟨a, ha⟩ := Option.isSome_iff_exists.mp hi
  obtain ⟨b, hb⟩ := Option.isSome_iff_exists.mp hj
  unfold pairStepE
  rw [ha, hb]

theorem getD_mem_of_lt {l : List String} {i : Nat} (h : i < l.length) :
    l.getD i "" ∈ l := by
  rw [List.getD_eq_getElem l "" h]
  exact List.getElem_mem h

theorem innerLoopE_eq (P : List String) (M : List (String × List String))
    (mp : Nat) (hkeys : ∀ k ∈ P, (mapGet M k).isSome) (i : Nat) (hi : i < P.length) :
    ∀ (fuel j : Nat) (st : PairState),
      innerLoopE P M mp fuel i j st = .ok (innerLoop P M mp fuel i j st) := by
  intro fuel
  induction fuel with
  | zero => intro j st; rfl
  | succ n ih =>
    intro j st
    simp only [innerLoopE, innerLoop]
    split_ifs with hj hb
    · rfl
    · rfl
    · rw [pairStepE_eq P M i j st
        (hkeys _ (getD_mem_of_lt hi)) (hkeys _ (getD_mem_of_lt (by omega)))]
      exact ih (j + 1) (pairStep P M i j st)

theorem outerLoopE_eq (P : List String) (M : List (String × List String))
    (mp : Nat) (hkeys : ∀ k ∈ P, (mapGet M k).isSome) :
    ∀ (fuel i : Nat) (st : PairState),
      outerLoopE P M mp fuel i st = .ok (outerLoop P M mp fuel i st) := by
  intro fuel
  induction fuel with
  | zero => intro i st; rfl
  | succ n ih =>
    intro i st
    simp only [outerLoopE, outerLoop]
    split_ifs with hi
    · rfl
    · rw [innerLoopE_eq P M mp hkeys i (by omega)]
      exact ih (i + 1) _

/-- The two non-null map assertions of the pair loop always succeed: the
failure-explicit engine returns `ok` on every input. -/
theorem analyzeFilesE_ok (files : List FileBlob) (opts : Option Nat) :
    analyzeFilesE files opts = .ok (analyzeFiles files opts) := by
  simp only [analyzeFilesE, analyzeFiles, analyzeFull, pairPhase]
  rw [outerLoopE_eq _ _ _
    (fun k hk => mapGet_isSome_of_mem_keys (perFilePass files).shingleMap k hk)]

/-- Claim C7: `analyzeFiles` is total — on every batch the failure-explicit
run (where the pair loop's `shingleMap.get(...)!` assertions may fail)
returns `ok` with the summary, never an error. -/
theorem analyze_total (files : List FileBlob) (opts : Option Nat) :
    analyzeFilesE files opts = .ok (analyzeFiles files opts) :=
  analyzeFilesE_ok files opts

/-! ### The pair budget (C3) -/

/-- Claim C3 (amended): when the batch has more unordered pairs than the
budget `maxPairs` (8000 when the option is omitted), the duplicate pass
computes Jaccard similarities for exactly `maxPairs + 1` pairs — one more
than the spec says, because `pairs++ > maxPairs` checks the counter before
the increment — silently skips the rest, and raises no error. -/
theorem pair_budget_amended (files : List FileBlob) (opts : Option Nat)
    (hnodup : (files.map FileBlob.path).Nodup)
    (hbudget : opts.getD 8000 < files.length * (files.length - 1) / 2) :
    (analyzeFull files opts).2.compared.length = opts.getD 8000 + 1 ∧
    analyzeFilesE files opts = .ok (analyzeFiles files opts) := by
  refine ⟨?_, analyzeFilesE_ok files opts⟩
  show (pairPhase (perFilePass files).shingleMap (opts.getD 8000)).compared.length = _
  apply pairPhase_compared_length
  rw [perFilePass_keys files hnodup, List.length_map]
  have h2 := two_mul_triPairs files.length
  omega

def pbFileA : FileBlob := { path := "a", content := "", size := 0 }

def pbFileB : FileBlob := { path := "b", content := "", size := 0 }

def pbFileC : FileBlob := { path := "c", content := "", size := 0 }

/-- Claim C3 counterexample: three files and `maxPairs = 1` — the claim
predicts exactly 1 compared pair, but the loop compares 2. -/
theorem pair_budget_cx :
    1 < [pbFileA, pbFileB, pbFileC].length *
        ([pbFileA, pbFileB, pbFileC].length - 1) / 2 ∧
    (analyzeFull [pbFileA, pbFileB, pbFileC] (some 1)).2.compared.length ≠ 1 :=
  ⟨by decide, by decide⟩

/-- Witness for the amended C3 at the same three-file batch. -/
theorem pair_budget_amended_witness :
    ([pbFileA, pbFileB, pbFileC].map FileBlob.path).Nodup ∧
    (some 1 : Option Nat).getD 8000 <
      [pbFileA, pbFileB, pbFileC].length * ([pbFileA, pbFileB, pbFileC].length - 1) / 2 ∧
    (analyzeFull [pbFileA, pbFileB, pbFileC] (some 1)).2.compared.length =
      (some 1 : Option Nat).getD 8000 + 1 :=
  ⟨by decide, by decide,
    (pair_budget_amended [pbFileA, pbFileB, pbFileC] (some 1) (by decide) (by decide)).1⟩

/-! ### Determinism (C8) -/

/-- Claim C8: `analyzeFiles` is a pure function of its input — two invocations
on identical batches and options produce identical issues (same fields, same
order), identical duplicate clusters, and identical stats. -/
theorem analyze_idempotent (files1 files2 : List FileBlob) (opts : Option Nat)
    (h : files1 = files2) :
    (analyzeFiles files1 opts).issues = (analyzeFiles files2 opts).issues ∧
    (analyzeFiles files1 opts).duplicateClusters =
      (analyzeFiles files2 opts).duplicateClusters ∧
    (analyzeFiles files1 opts).stats = (analyzeFiles files2 opts).stats := by
  subst h
  exact ⟨rfl, rfl, rfl⟩

/-- Witness for C8 on a concrete batch. -/
theorem analyze_idempotent_witness :
    [pbFileA] = [pbFileA] ∧
    ((analyzeFiles [pbFileA] none).issues = (analyzeFiles [pbFileA] none).issues ∧
     (analyzeFiles [pbFileA] none).duplicateClusters =
       (analyzeFiles [pbFileA] none).duplicateClusters ∧
     (analyzeFiles [pbFileA] none).stats = (analyzeFiles [pbFileA] none).stats) :=
  ⟨rfl, analyze_idempotent [pbFileA] [pbFileA] none rfl⟩

/-! ### Same-path files (C10) -/

theorem mapKeys_mapSet_mem {α : Type} {m : List (String × α)} {k : String}
    (v : α) (h : k ∈ mapKeys m) : mapKeys (mapSet m k v) = mapKeys m := by
  unfold mapSet
  have hany : m.any (fun p => p.1 = k) = true := by
    simp only [mapKeys, List.mem_map] at h
    obtain ⟨q, hq, hqk⟩ := h
    rw [List.any_eq_true]
    exact ⟨q, hq, by simpa using hqk⟩
  rw [if_pos hany]
  simp only [mapKeys, List.map_map]
  apply List.map_congr_left
  intro q hq
  simp only [Function.comp]
  split_ifs with hqe
  · simp [hqe]
  · rfl

theorem mapKeys_mapSet_nodup {α : Type} {m : List (String × α)} (k : String)
    (v : α) (h : (mapKeys m).Nodup) : (mapKeys (mapSet m k v)).Nodup := by
  by_cases hk : k ∈ mapKeys m
  · rw [mapKeys_mapSet_mem v hk]
    exact h
  · rw [mapKeys_mapSet_not_mem v hk]
    simp [List.nodup_append, h, hk]

/-- The duplicate pass always iterates over pairwise-distinct paths. -/
theorem perFilePass_keys_nodup (files : List FileBlob) :
    (mapKeys (perFilePass files).shingleMap).Nodup := by
  unfold perFilePass
  rw [perFilePass_shingleMap_core]
  suffices hgen : ∀ (fs : List FileBlob) (m : List (String × List String)),
      (mapKeys m).Nodup →
      (mapKeys (fs.foldl
        (fun acc f => mapSet acc f.path (mkSet (shingles (tokenize f.content) 30)))
        m)).Nodup by
    exact hgen files [] (by simp [mapKeys])
  intro fs
  induction fs with
  | nil => intro m hm; exact hm
  | cons f rest ih =>
    intro m hm
    simp only [List.foldl_cons]
    exact ih _ (mapKeys_mapSet_nodup f.path _ hm)

/-- Claim C10: in a batch of two files with the same path, the later file
overwrites the earlier one's tokens and shingle set in the path-keyed maps;
the duplicate pass iterates over distinct paths only, so the two same-path
files are never compared with each other (no cluster arises even for
identical contents), while `stats.filesAnalyzed` still counts both. -/
theorem duplicate_path_overwrite (f g : FileBlob) (opts : Option Nat)
    (h : f.path = g.path) :
    (∀ files : List FileBlob, (mapKeys (perFilePass files).shingleMap).Nodup) ∧
    (perFilePass [f, g]).tokenMap = [(g.path, tokenize g.content)] ∧
    (perFilePass [f, g]).shingleMap =
      [(g.path, mkSet (shingles (tokenize g.content) 30))] ∧
    (analyzeFiles [f, g] opts).duplicateClusters = [] ∧
    (analyzeFiles [f, g] opts).stats.filesAnalyzed = 2 := by
  have htok : (perFilePass [f, g]).tokenMap = [(g.path, tokenize g.content)] := by
    simp [perFilePass, perFileStep, mapSet, h]
  have hsh : (perFilePass [f, g]).shingleMap =
      [(g.path, mkSet (shingles (tokenize g.content) 30))] := by
    simp [perFilePass, perFileStep, mapSet, h]
  refine ⟨perFilePass_keys_nodup, htok, hsh, ?_, rfl⟩
  show (pairPhase (perFilePass [f, g]).shingleMap (opts.getD 8000)).clusters = []
  rw [hsh]
  rfl

/-- A pair of same-path files with identical 35-token contents. -/
def dupPathFile1 : FileBlob :=
  { path := "p.js", content := " ".intercalate (List.replicate 18 "ab"), size := 0 }

def dupPathFile2 : FileBlob :=
  { path := "p.js", content := " ".intercalate (List.replicate 18 "ab"), size := 0 }

/-- Witness for C10. -/
theorem duplicate_path_overwrite_witness :
    dupPathFile1.path = dupPathFile2.path ∧
    ((∀ files : List FileBlob, (mapKeys (perFilePass files).shingleMap).Nodup) ∧
     (perFilePass [dupPathFile1, dupPathFile2]).tokenMap =
       [(dupPathFile2.path, tokenize dupPathFile2.content)] ∧
     (perFilePass [dupPathFile1, dupPathFile2]).shingleMap =
       [(dupPathFile2.path, mkSet (shingles (tokenize dupPathFile2.content) 30))] ∧
     (analyzeFiles [dupPathFile1, dupPathFile2] none).duplicateClusters = [] ∧
     (analyzeFiles [dupPathFile1, dupPathFile2] none).stats.filesAnalyzed = 2) :=
  ⟨rfl, duplicate_path_overwrite dupPathFile1 dupPathFile2 none rfl⟩

/-! ### Duplicate emission (C5) -/

/-- Does the pair `(i, j)` qualify for a cluster? (`sim >= 0.6`) -/
def qualifies (P : List String) (M : List (String × List String))
    (ij : Nat × Nat) : Bool :=
  Rat.divInt 3 5 ≤ simAt P M ij.1 ij.2

/-- The cluster pushed for a qualifying pair. -/
def clusterAt (P : List String) (M : List (String × List String))
    (ij : Nat × Nat) : DuplicateCluster :=
  { files := [P.getD ij.1 "", P.getD ij.2 ""],
    similarity := round2 (simAt P M ij.1 ij.2) }

/-- The companion issue pushed for a qualifying pair. -/
def dupIssueAt (P : List String) (M : List (String × List String))
    (ij : Nat × Nat) : HeuristicIssue :=
  dupIssue (P.getD ij.1 "") (P.getD ij.2 "") (simAt P M ij.1 ij.2)

/-- Loop invariant: clusters and companion issues are exactly one per
qualifying compared pair, in comparison order. -/
def PairEmitInv (P : List String) (M : List (String × List String))
    (st : PairState) : Prop :=
  st.clusters = (st.compared.filter (qualifies P M)).map (clusterAt P M) ∧
  st.dupIssues = (st.compared.filter (qualifies P M)).map (dupIssueAt P M)

theorem pairStep_emit_inv (P : List String) (M : List (String × List String))
    (i j : Nat) (st : PairState) (h : PairEmitInv P M st) :
    PairEmitInv P M (pairStep P M i j st) := by
  obtain ⟨h1, h2⟩ := h
  unfold PairEmitInv
  simp only [pairStep]
  split_ifs with hq
  · constructor
    · show st.clusters ++ _ = _
      simp [List.filter_append, h1, qualifies, hq, clusterAt]
    · show st.dupIssues ++ _ = _
      simp [List.filter_append, h2, qualifies, hq, dupIssueAt]
  · constructor
    · show st.clusters = _
      simp [List.filter_append, h1, qualifies, hq]
    · show st.dupIssues = _
      simp [List.filter_append, h2, qualifies, hq]

theorem innerLoop_emit_inv (P : List String) (M : List (String × List String))
    (mp i : Nat) :
    ∀ (fuel j : Nat) (st : PairState), PairEmitInv P M st →
      PairEmitInv P M (innerLoop P M mp fuel i j st) := by
  intro fuel
  induction fuel with
  | zero => intro j st h; simpa only [innerLoop] using h
  | succ n ih =>
    intro j st h
    simp only [innerLoop]
    split_ifs with hj hb
    · exact h
    · exact h
    · exact ih (j + 1) _ (pairStep_emit_inv P M i j st h)

theorem outerLoop_emit_inv (P : List String) (M : List (String × List String))
    (mp : Nat) :
    ∀ (fuel i : Nat) (st : PairState), PairEmitInv P M st →
      PairEmitInv P M (outerLoop P M mp fuel i st) := by
  intro fuel
  induction fuel with
  | zero => intro i st h; simpa only [outerLoop] using h
  | succ n ih =>
    intro i st h
    simp only [outerLoop]
    split_ifs with hi
    · exact h
    · exact ih (i + 1) _ (innerLoop_emit_inv P M mp i (P.length + 1) (i + 1) st h)

theorem analyzeFull_emit_inv (files : List FileBlob) (opts : Option Nat) :
    PairEmitInv (mapKeys (perFilePass files).shingleMap)
      (perFilePass files).shingleMap (analyzeFull files opts).2 :=
  outerLoop_emit_inv _ _ _ _ _ pairInit ⟨rfl, rfl⟩

theorem fileIssues_type_ne_dup {f : FileBlob} {is : HeuristicIssue}
    (h : is ∈ fileIssues f) : is.type ≠ .DUPLICATION := by
  simp only [fileIssues, List.mem_append] at h
  rcases h with ((((h | h) | h) | h) | h)
  · rw [(complexityIssues_props h).1]; simp
  · obtain ⟨l, m, hm⟩ := mem_scanLines h
    rw [(secLineIssues_props hm).1]; simp
  · obtain ⟨l, m, hm⟩ := mem_scanLines h
    rw [(bugLineIssues_props hm).1]; simp
  · obtain ⟨l, m, hm⟩ := mem_scanLines h
    rw [(perfLineIssues_props hm).1]; simp
  · obtain ⟨l, m, hm⟩ := mem_scanLines h
    rw [(styleLineIssues_props hm).1]; simp

theorem perFilePass_issues_mem :
    ∀ (fs : List FileBlob) (st : PerFileState) (is : HeuristicIssue),
      is ∈ (fs.foldl perFileStep st).issues →
      is ∈ st.issues ∨ ∃ f ∈ fs, is ∈ fileIssues f := by
  intro fs
  induction fs with
  | nil => intro st is h; exact .inl h
  | cons f rest ih =>
    intro st is h
    simp only [List.foldl_cons] at h
    rcases ih _ is h with h' | ⟨g, hg, hgi⟩
    · rcases List.mem_append.mp h' with h'' | h''
      · exact .inl h''
      · exact .inr ⟨f, by simp, h''⟩
    · exact .inr ⟨g, by simp [hg], hgi⟩

/-- The per-file pass contributes no `DUPLICATION` issue. -/
theorem perFilePass_filter_dup (files : List FileBlob) :
    (perFilePass files).issues.filter (fun is => is.type = .DUPLICATION) = [] := by
  rw [List.filter_eq_nil_iff]
  intro a ha
  rcases perFilePass_issues_mem files _ a ha with h | ⟨f, _, hf⟩
  · simp at h
  · simp [fileIssues_type_ne_dup hf]

theorem shingles_ne_nil {tokens : List String} (h : 30 ≤ tokens.length) :
    shingles tokens 30 ≠ [] := by
  unfold shingles
  rw [if_neg (by omega)]
  simp only [ne_eq, List.map_eq_nil_iff, List.range_eq_nil]
  omega

theorem jsSetInsert_length_le (l : List String) (x : String) :
    l.length ≤ (jsSetInsert l x).length := by
  unfold jsSetInsert
  split_ifs <;> simp

theorem foldl_jsSetInsert_length :
    ∀ (l : List String) (acc : List String),
      acc.length ≤ (l.foldl jsSetInsert acc).length := by
  intro l
  induction l with
  | nil => intro acc; simp
  | cons x xs ih =>
    intro acc
    simp only [List.foldl_cons]
    exact le_trans (jsSetInsert_length_le acc x) (ih (jsSetInsert acc x))

theorem mkSet_ne_nil {l : List String} (h : l ≠ []) : mkSet l ≠ [] := by
  cases l with
  | nil => exact absurd rfl h
  | cons x xs =>
    unfold mkSet
    simp only [List.foldl_cons]
    have h1 : (jsSetInsert [] x).length = 1 := rfl
    have h2 := foldl_jsSetInsert_length xs (jsSetInsert [] x)
    intro hc
    rw [hc] at h2
    simp [h1] at h2

/-- A set is maximally similar to itself. -/
theorem jaccard_self {a : List String} (h : a ≠ []) : jaccard a a = 1 := by
  have hfull : a.filter (fun s => s ∈ a) = a :=
    List.filter_eq_self.mpr (fun x hx => by simpa using hx)
  have hlen : a.length ≠ 0 := by simpa [List.length_eq_zero] using h
  simp only [jaccard, hfull]
  rw [if_neg (by omega)]
  have hu : a.length + a.length - a.length = a.length := by omega
  rw [hu]
  exact Rat.divInt_self' (by exact_mod_cast hlen)

theorem round2_one : round2 1 = 1 := by
  rw [round2, round2Int, Rat.num_one, Rat.den_one]
  norm_num

theorem toFixed2_one : toFixed2 1 = "1.00" := by
  have h : round2Int 1 = 100 := by
    rw [round2Int, Rat.num_one, Rat.den_one]
    decide
  rw [toFixed2, h]
  decide

theorem simAt_pair (p1 p2 : String) (A B : List String) (hne : p1 ≠ p2) :
    simAt [p1, p2] [(p1, A), (p2, B)] 0 1 = jaccard A B := by
  simp [simAt, mapGet, List.find?_cons, hne]

/-- For two entries, the whole pair loop is one `pairStep` on `(0, 1)`. -/
theorem pairPhase_pair (A B : List String) (p1 p2 : String) (mp : Nat) :
    pairPhase [(p1, A), (p2, B)] mp =
      pairStep [p1, p2] [(p1, A), (p2, B)] 0 1 pairInit := rfl

/-- Claim C5: (general part) every compared pair whose similarity reaches 0.6
yields exactly one cluster and exactly one companion `DUPLICATION` issue, in
comparison order; (scenario) two distinct-path files with identical 200-token
bodies produce similarity `1.00`, one cluster, and one companion issue naming
the second path and `1.00`. -/
theorem duplicate_pair_emission :
    (∀ (files : List FileBlob) (opts : Option Nat),
      (analyzeFiles files opts).duplicateClusters =
        ((analyzeFull files opts).2.compared.filter
            (qualifies (mapKeys (perFilePass files).shingleMap)
              (perFilePass files).shingleMap)).map
          (clusterAt (mapKeys (perFilePass files).shingleMap)
            (perFilePass files).shingleMap) ∧
      (analyzeFiles files opts).issues.filter (fun is => is.type = .DUPLICATION) =
        ((analyzeFull files opts).2.compared.filter
            (qualifies (mapKeys (perFilePass files).shingleMap)
              (perFilePass files).shingleMap)).map
          (dupIssueAt (mapKeys (perFilePass files).shingleMap)
            (perFilePass files).shingleMap)) ∧
    (∀ (p1 p2 c : String) (s1 s2 : Nat), p1 ≠ p2 → (tokenize c).length = 200 →
      (analyzeFiles [⟨p1, none, c, s1⟩, ⟨p2, none, c, s2⟩] none).duplicateClusters =
        [{ files := [p1, p2], similarity := 1 }] ∧
      (analyzeFiles [⟨p1, none, c, s1⟩, ⟨p2, none, c, s2⟩] none).issues.filter
        (fun is => is.type = .DUPLICATION) = [dupIssue p1 p2 1] ∧
      (dupIssue p1 p2 1).message =
        "Near-duplicate with " ++ p2 ++ " (Jaccard ≈ 1.00)") := by
  have hmain : ∀ (files : List FileBlob) (opts : Option Nat),
      (analyzeFiles files opts).duplicateClusters =
        ((analyzeFull files opts).2.compared.filter
            (qualifies (mapKeys (perFilePass files).shingleMap)
              (perFilePass files).shingleMap)).map
          (clusterAt (mapKeys (perFilePass files).shingleMap)
            (perFilePass files).shingleMap) ∧
      (analyzeFiles files opts).issues.filter (fun is => is.type = .DUPLICATION) =
        ((analyzeFull files opts).2.compared.filter
            (qualifies (mapKeys (perFilePass files).shingleMap)
              (perFilePass files).shingleMap)).map
          (dupIssueAt (mapKeys (perFilePass files).shingleMap)
            (perFilePass files).shingleMap) := by
    intro files opts
    obtain ⟨hc, hd⟩ := analyzeFull_emit_inv files opts
    constructor
    · exact hc
    · show ((perFilePass files).issues ++ (analyzeFull files opts).2.dupIssues).filter
          (fun is => is.type = .DUPLICATION) = _
      rw [List.filter_append, perFilePass_filter_dup, List.nil_append, hd]
      rw [List.filter_eq_self]
      intro a ha
      obtain ⟨ij, _, rfl⟩ := List.mem_map.mp ha
      simp [dupIssueAt, dupIssue]
  refine ⟨hmain, ?_⟩
  intro p1 p2 c s1 s2 hne hlen
  have hS : mkSet (shingles (tokenize c) 30) ≠ [] :=
    mkSet_ne_nil (shingles_ne_nil (by omega))
  have hjac : jaccard (mkSet (shingles (tokenize c) 30))
      (mkSet (shingles (tokenize c) 30)) = 1 := jaccard_self hS
  have hsh : (perFilePass [⟨p1, none, c, s1⟩, ⟨p2, none, c, s2⟩]).shingleMap =
      [(p1, mkSet (shingles (tokenize c) 30)), (p2, mkSet (shingles (tokenize c) 30))] := by
    simp [perFilePass, perFileStep, mapSet, hne]
  have hps : pairStep [p1, p2]
      [(p1, mkSet (shingles (tokenize c) 30)), (p2, mkSet (shingles (tokenize c) 30))]
      0 1 pairInit =
      { pairs := 1, compared := [(0, 1)], clusters := [{ files := [p1, p2], similarity := 1 }],
        dupIssues := [dupIssue p1 p2 1] } := by
    simp only [pairStep, simAt_pair p1 p2 _ _ hne, hjac]
    rw [if_pos (by decide)]
    simp [pairInit, round2_one]
  have hpair : (analyzeFull [⟨p1, none, c, s1⟩, ⟨p2, none, c, s2⟩] none).2 =
      { pairs := 1, compared := [(0, 1)], clusters := [{ files := [p1, p2], similarity := 1 }],
        dupIssues := [dupIssue p1 p2 1] } := by
    show pairPhase (perFilePass [⟨p1, none, c, s1⟩, ⟨p2, none, c, s2⟩]).shingleMap 8000 = _
    rw [hsh, pairPhase_pair]
    exact hps
  refine ⟨?_, ?_, ?_⟩
  · show (analyzeFull [⟨p1, none, c, s1⟩, ⟨p2, none, c, s2⟩] none).2.clusters = _
    rw [hpair]
  · show ((perFilePass [⟨p1, none, c, s1⟩, ⟨p2, none, c, s2⟩]).issues ++
        (analyzeFull [⟨p1, none, c, s1⟩, ⟨p2, none, c, s2⟩] none).2.dupIssues).filter
        (fun is => is.type = .DUPLICATION) = _
    rw [List.filter_append, perFilePass_filter_dup, List.nil_append, hpair]
    simp [dupIssue]
  · rw [show (dupIssue p1 p2 1).message =
        "Near-duplicate with " ++ p2 ++ " (Jaccard ≈ " ++ toFixed2 1 ++ ")" from rfl,
      toFixed2_one]
    simp [String.append_assoc]

/-- A 200-token body: one hundred repetitions of `a;`. -/
def dupBody : String := String.join (List.replicate 100 "a;")

/-- Witness for C5's scenario at a concrete 200-token pair of files. -/
theorem duplicate_pair_emission_witness :
    ("p1.js" ≠ "p2.js") ∧ (tokenize dupBody).length = 200 ∧
    ((analyzeFiles [⟨"p1.js", none, dupBody, 0⟩, ⟨"p2.js", none, dupBody, 0⟩]
        none).duplicateClusters = [{ files := ["p1.js", "p2.js"], similarity := 1 }] ∧
     (analyzeFiles [⟨"p1.js", none, dupBody, 0⟩, ⟨"p2.js", none, dupBody, 0⟩]
        none).issues.filter (fun is => is.type = .DUPLICATION) =
       [dupIssue "p1.js" "p2.js" 1] ∧
     (dupIssue "p1.js" "p2.js" 1).message =
       "Near-duplicate with p2.js (Jaccard ≈ 1.00)") := by
  refine ⟨by decide, by decide, ?_⟩
  have h := duplicate_pair_emission.2 "p1.js" "p2.js" dupBody 0 0 (by decide) (by decide)
  exact h

end GHA
